import Mathlib

/-!
Shallow embedding of `service.go` (package `main` of jfernstad/go-webservice,
the variant providing the endpoint-registration API `Register`).

Go handlers are side-effecting procedures over an `http.ResponseWriter` and
stdout; here a handler is a pure function from a request to the list of
observable effects it performs, in order.  Go maps become functions into
`Option` (a missing key is Go's `nil` zero value).  The HTTP status of a
response follows the `net/http` model: the status sent on the wire is the
argument of the first `WriteHeader` call if one happens before the first body
write, and 200 otherwise.
-/

namespace Service

/-- The parts of an `*http.Request` the embedded code reads:
`req.Method`, `req.URL.Path` and `req.UserAgent()`. -/
structure Request where
  method : String
  path : String
  userAgent : String

/-- One observable side effect of a handler: a header mutation
(`w.Header().Set`), an explicit status write (`w.WriteHeader` — present in the
`net/http` interface although no function of `service.go` ever calls it), a
body write (`w.Write` / `io.WriteString` / the encoder's output), or a line
printed to stdout (`fmt.Printf`). -/
inductive Effect where
  | setHeader (name value : String)
  | writeHeader (status : Nat)
  | write (s : String)
  | log (line : String)
deriving DecidableEq

/-- `http.HandlerFunc`: a handler maps a request to its effect trace. -/
abbrev HandlerFunc := Request → List Effect

/-- Status code actually sent on the wire, per `net/http`: the first
`WriteHeader` before any body write decides it; the first body write without
a prior `WriteHeader` commits status 200; a handler that writes nothing also
results in 200. -/
def responseStatus : List Effect → Nat
  | [] => 200
  | Effect.writeHeader s :: _ => s
  | Effect.write _ :: _ => 200
  | Effect.setHeader _ _ :: rest => responseStatus rest
  | Effect.log _ :: rest => responseStatus rest

/-- Concatenation of all body bytes written by the trace. -/
def responseBody : List Effect → String
  | [] => ""
  | Effect.write s :: rest => s ++ responseBody rest
  | _ :: rest => responseBody rest

/-- The stdout lines emitted by the trace, in order. -/
def logsOf : List Effect → List String
  | [] => []
  | Effect.log s :: rest => s :: logsOf rest
  | _ :: rest => logsOf rest

/-- `true` iff the trace sets the `Content-Type` header to
`application/json; charset=utf-8` strictly before any body byte is written. -/
def jsonHeaderBeforeWrite : List Effect → Bool
  | [] => false
  | Effect.write _ :: _ => false
  | Effect.setHeader n v :: rest =>
      if n = "Content-Type" && v = "application/json; charset=utf-8" then true
      else jsonHeaderBeforeWrite rest
  | Effect.log _ :: rest => jsonHeaderBeforeWrite rest
  | Effect.writeHeader _ :: rest => jsonHeaderBeforeWrite rest

/-- Decimal digits of `n` pushed onto `acc`, fuel-driven (any `fuel ≥ n`
computes the full representation); models the decimal formatting shared by
`fmt.Sprintf("%d", ·)` and `encoding/json`'s number output. -/
def natDigitsCore : Nat → Nat → List Char → List Char
  | 0, _, acc => acc
  | fuel + 1, n, acc =>
      if n = 0 then acc
      else natDigitsCore fuel (n / 10) (Char.ofNat (48 + n % 10) :: acc)

/-- Decimal representation of a natural number. -/
def natDecimal (n : Nat) : String :=
  if n = 0 then "0" else ⟨natDigitsCore n n []⟩

/-- Decimal representation of an integer (Go `%d`). -/
def intDecimal : Int → String
  | Int.ofNat n => natDecimal n
  | Int.negSucc n => "-" ++ natDecimal (n + 1)

/-- Lower-case hex digit for `n < 16`. -/
def hexDigitChar (n : Nat) : Char :=
  if n < 10 then Char.ofNat (48 + n) else Char.ofNat (87 + n)

/-- How `encoding/json` (with its default HTML escaping) renders one
character inside a JSON string. -/
def goJsonEscapeChar (c : Char) : List Char :=
  if c = '"' then ['\\', '"']
  else if c = '\\' then ['\\', '\\']
  else if c = '\n' then ['\\', 'n']
  else if c = '\r' then ['\\', 'r']
  else if c = '\t' then ['\\', 't']
  else if c = '<' then ['\\', 'u', '0', '0', '3', 'c']
  else if c = '>' then ['\\', 'u', '0', '0', '3', 'e']
  else if c = '&' then ['\\', 'u', '0', '0', '2', '6']
  else if c.toNat < 32 then
    ['\\', 'u', '0', '0', hexDigitChar (c.toNat / 16), hexDigitChar (c.toNat % 16)]
  else if c.toNat = 8232 then ['\\', 'u', '2', '0', '2', '8']
  else if c.toNat = 8233 then ['\\', 'u', '2', '0', '2', '9']
  else [c]

/-- `goJsonEscapeChar` mapped over a character list. -/
def escapeList : List Char → List Char
  | [] => []
  | c :: rest => goJsonEscapeChar c ++ escapeList rest

/-- JSON string escaping as performed by `encoding/json`. -/
def goJsonEscape (s : String) : String := ⟨escapeList s.data⟩

/-- Output of `json.NewEncoder(w).Encode(ErrStruct{Code: code, Message: message})`:
the object in struct-field order (`code`, then `message`) followed by the
newline `Encode` appends. -/
def encodeErrStruct (code : Int) (message : String) : String :=
  "\x7b\"code\":" ++ intDecimal code ++ ",\"message\":\"" ++ goJsonEscape message ++ "\"\x7d\n"

/-- The hand-interpolated fallback `fmt.Sprintf("\x7b\"code\":%d,\"message\":\"%s\"\x7d", code, errString)`
written when `Encode` reports an error: no JSON escaping, no trailing newline. -/
def fallbackErrString (code : Int) (message : String) : String :=
  "\x7b\"code\":" ++ intDecimal code ++ ",\"message\":\"" ++ message ++ "\"\x7d"

/-- `httpError`, parameterised by whether the `json` encoder reports an error
(for `ErrStruct` the marshaller itself cannot fail, and the modelled response
writer never fails, so the real program takes the `false` branch; the `true`
branch is the recovery path kept in the model to reason about it).  Sets the
JSON content type, then writes either the encoder output or the fallback
string.  Either way the error is handled locally: the function always returns
a complete trace and surfaces nothing to its caller. -/
def httpErrorGen (encodeFails : Bool) (code : Int) (errString : String) : List Effect :=
  Effect.setHeader "Content-Type" "application/json; charset=utf-8" ::
  (if encodeFails then [Effect.write (fallbackErrString code errString)]
   else [Effect.write (encodeErrStruct code errString)])

/-- `httpError(code, errString, w)` as executed by the program. -/
def httpError (code : Int) (errString : String) : List Effect :=
  httpErrorGen false code errString

/-- `urlHandlerMap`: Go map from HTTP method to handler; a missing key reads
as `nil`, i.e. `none`. -/
abbrev urlHandlerMap := String → Option HandlerFunc

/-- `methodURLHandlerMap`: Go map from path to `urlHandlerMap`. -/
abbrev methodURLHandlerMap := String → Option urlHandlerMap

/-- `MyMux`: the muxer, holding the two-level dispatch table. -/
structure MyMux where
  handlers : methodURLHandlerMap

/-- `MyMux{}`: the zero value, whose `handlers` map is `nil` — every lookup
yields `nil`, which is exactly `fun _ => none`. -/
def MyMux.empty : MyMux := ⟨fun _ => none⟩

/-- `MyMux.ServeHTTP`: look up path, then method; invoke the stored handler,
else answer 405 (path known, method not) or 404 (path unknown).
`fmt.Sprint("missing")` is the string `"missing"`. -/
def MyMux.ServeHTTP (m : MyMux) (req : Request) : List Effect :=
  match m.handlers req.path with
  | some urlH =>
      match urlH req.method with
      | some h => h req
      | none => httpError 405 (req.method ++ " not allowed on " ++ req.path)
  | none => httpError 404 "missing"

/-- `MyMux.RegisterHandler`: lazily create the per-path map, then store `h`
at `(path, method)`, overwriting any previous entry.  (The `m.handlers == nil`
re-initialisation is the identity in the functional model, where the nil map
and the empty map are both `fun _ => none`.) -/
def MyMux.RegisterHandler (m : MyMux) (method path : String) (h : HandlerFunc) : MyMux :=
  let urlH : urlHandlerMap :=
    match m.handlers path with
    | some u => u
    | none => fun _ => none
  ⟨fun p => if p = path then
      some (fun meth => if meth = method then some h else urlH meth)
    else m.handlers p⟩

/-- C1: a `(path, verb)` pair registered through `RegisterHandler` resolves,
through `ServeHTTP`, to the handler most recently registered for it; in
particular after two registrations of the same pair the second handler, not
the first, is invoked. -/
theorem claim_C1 (m : MyMux) (v p : String) (h₁ h₂ : HandlerFunc) (req : Request)
    (hm : req.method = v) (hp : req.path = p) :
    (m.RegisterHandler v p h₂).ServeHTTP req = h₂ req ∧
    ((m.RegisterHandler v p h₁).RegisterHandler v p h₂).ServeHTTP req = h₂ req := by
  subst hm hp
  constructor <;> simp [MyMux.ServeHTTP, MyMux.RegisterHandler]

theorem claim_C1_witness :
    ((MyMux.empty.RegisterHandler "GET" "/" (fun _ => [Effect.write "first"])).RegisterHandler
        "GET" "/" (fun _ => [Effect.write "second"])).ServeHTTP ⟨"GET", "/", "ua"⟩ =
      [Effect.write "second"] :=
  (claim_C1 MyMux.empty "GET" "/" (fun _ => [Effect.write "first"])
    (fun _ => [Effect.write "second"]) ⟨"GET", "/", "ua"⟩ rfl rfl).2

/-- `EndpointMethods`: the capability set an endpoint entity exposes — five
verb handlers plus the two decoration queries, modelled as thunks called like
the Go methods `DecorateJSON()` / `DecorateLOG()`. -/
structure EndpointMethods where
  GET : HandlerFunc
  PUT : HandlerFunc
  POST : HandlerFunc
  DELETE : HandlerFunc
  OPTIONS : HandlerFunc
  DecorateJSON : Unit → Bool
  DecorateLOG : Unit → Bool

/-- `printDecorator`: before running `h`, print
`%s "%s" -> %s\n` with the request's method, path and user agent. -/
def printDecorator (h : HandlerFunc) : HandlerFunc :=
  fun req =>
    Effect.log (req.method ++ " \"" ++ req.path ++ "\" -> " ++ req.userAgent ++ "\n") :: h req

/-- `jsonDecorator`: before running `h`, set the JSON content type. -/
def jsonDecorator (h : HandlerFunc) : HandlerFunc :=
  fun req => Effect.setHeader "Content-Type" "application/json; charset=utf-8" :: h req

/-- Go map assignment `u[k] = h`. -/
def urlHandlerMap.set (u : urlHandlerMap) (k : String) (h : HandlerFunc) : urlHandlerMap :=
  fun meth => if meth = k then some h else u meth

/-- `u[k] = d(u[k])`: replace the handler stored at `k` by its decorated
version.  (When `Register` does this the key was just assigned, so it is
always present; a missing key leaves the map unchanged.) -/
def urlHandlerMap.decorateAt (u : urlHandlerMap) (k : String)
    (d : HandlerFunc → HandlerFunc) : urlHandlerMap :=
  match u k with
  | some h => u.set k (d h)
  | none => u

/-- Decorate the five bound verbs in the order `Register` does. -/
def urlHandlerMap.decorateFive (u : urlHandlerMap)
    (d : HandlerFunc → HandlerFunc) : urlHandlerMap :=
  ((((u.decorateAt "GET" d).decorateAt "PUT" d).decorateAt
      "POST" d).decorateAt "DELETE" d).decorateAt "OPTIONS" d

/-- `MyMux.Register`: bind the entity's five verb methods at `path`
(overwriting any previous entries), then — conditionally on the values of the
two decoration queries, each called once, here, at registration time — wrap
all five with `jsonDecorator`, and then all five with `printDecorator`. -/
def MyMux.Register (m : MyMux) (path : String) (edph : EndpointMethods) : MyMux :=
  let u0 : urlHandlerMap :=
    match m.handlers path with
    | some u => u
    | none => fun _ => none
  let u1 := ((((u0.set "GET" edph.GET).set "PUT" edph.PUT).set
      "POST" edph.POST).set "DELETE" edph.DELETE).set "OPTIONS" edph.OPTIONS
  let u2 := if edph.DecorateJSON () then u1.decorateFive jsonDecorator else u1
  let u3 := if edph.DecorateLOG () then u2.decorateFive printDecorator else u2
  ⟨fun p => if p = path then some u3 else m.handlers p⟩

/-- The verb method of `e` that `Register` binds for method string `v`
(meaningful for the five bound verbs; `OPTIONS` is the final case). -/
def EndpointMethods.verb (e : EndpointMethods) (v : String) : HandlerFunc :=
  if v = "GET" then e.GET
  else if v = "PUT" then e.PUT
  else if v = "POST" then e.POST
  else if v = "DELETE" then e.DELETE
  else e.OPTIONS

/-- `EndpointHandler`: the default endpoint implementation; its two fields are
never read by its own methods. -/
structure EndpointHandler where
  AddLogDecorator : Bool
  AddJSONDecorator : Bool

/-- Default GET: `httpError(405, "<verb> not allowed on <path>")`. -/
def EndpointHandler.GET (_ : EndpointHandler) : HandlerFunc :=
  fun req => httpError 405 (req.method ++ " not allowed on " ++ req.path)

/-- Default PUT: `httpError(405, "<verb> not allowed on <path>")`. -/
def EndpointHandler.PUT (_ : EndpointHandler) : HandlerFunc :=
  fun req => httpError 405 (req.method ++ " not allowed on " ++ req.path)

/-- Default POST: `httpError(405, "<verb> not allowed on <path>")`. -/
def EndpointHandler.POST (_ : EndpointHandler) : HandlerFunc :=
  fun req => httpError 405 (req.method ++ " not allowed on " ++ req.path)

/-- Default DELETE: `httpError(405, "<verb> not allowed on <path>")`. -/
def EndpointHandler.DELETE (_ : EndpointHandler) : HandlerFunc :=
  fun req => httpError 405 (req.method ++ " not allowed on " ++ req.path)

/-- Default OPTIONS: `httpError(405, "<verb> not allowed on <path>")`. -/
def EndpointHandler.OPTIONS (_ : EndpointHandler) : HandlerFunc :=
  fun req => httpError 405 (req.method ++ " not allowed on " ++ req.path)

/-- Default JSON-decoration query: always `false` (the field is ignored). -/
def EndpointHandler.DecorateJSON (_ : EndpointHandler) : Unit → Bool := fun _ => false

/-- Default log-decoration query: always `false` (the field is ignored). -/
def EndpointHandler.DecorateLOG (_ : EndpointHandler) : Unit → Bool := fun _ => false

/-- The capability set of a bare `EndpointHandler`. -/
def EndpointHandler.methods (e : EndpointHandler) : EndpointMethods :=
  ⟨e.GET, e.PUT, e.POST, e.DELETE, e.OPTIONS, e.DecorateJSON, e.DecorateLOG⟩

/-- `Index`: embeds `EndpointHandler`, overriding GET and the two queries
(which now report the embedded flags). -/
structure Index where
  base : EndpointHandler

/-- Overridden GET: writes `\x7b"msg":"GET!"\x7d` and a newline. -/
def Index.GET (_ : Index) : HandlerFunc :=
  fun _ => [Effect.write "\x7b\"msg\":\"GET!\"\x7d\n"]

/-- Overridden JSON-decoration query: reads `AddJSONDecorator`. -/
def Index.DecorateJSON (idx : Index) : Unit → Bool := fun _ => idx.base.AddJSONDecorator

/-- Overridden log-decoration query: reads `AddLogDecorator`. -/
def Index.DecorateLOG (idx : Index) : Unit → Bool := fun _ => idx.base.AddLogDecorator

/-- The capability set of an `Index`: its own overrides, with the remaining
verbs promoted from the embedded `EndpointHandler`. -/
def Index.methods (idx : Index) : EndpointMethods :=
  ⟨idx.GET, idx.base.PUT, idx.base.POST, idx.base.DELETE, idx.base.OPTIONS,
    idx.DecorateJSON, idx.DecorateLOG⟩

/-- C2, exhibited as a code defect: with an empty dispatch table, a GET to an
unregistered path makes the router write the JSON body
`\x7b"code":404,"message":"missing"\x7d` (plus the newline `Encode` appends) —
but the response goes out with HTTP status 200, not 404, because no code path
ever calls `WriteHeader`. -/
theorem claim_C2_bug :
    responseStatus (MyMux.empty.ServeHTTP ⟨"GET", "/missing", "ua"⟩) = 200 ∧
    responseBody (MyMux.empty.ServeHTTP ⟨"GET", "/missing", "ua"⟩) =
      "\x7b\"code\":404,\"message\":\"missing\"\x7d\n" := by
  constructor <;> rfl

/-- C3, exhibited as a code defect: with `/` registered under GET only, a PUT
to `/` makes the router write the JSON body
`\x7b"code":405,"message":"PUT not allowed on /"\x7d` (message interpolates the
request's verb and path) — but the response goes out with HTTP status 200,
not 405, because no code path ever calls `WriteHeader`. -/
theorem claim_C3_bug :
    responseStatus ((MyMux.empty.RegisterHandler "GET" "/"
        (fun _ => [Effect.write "ok"])).ServeHTTP ⟨"PUT", "/", "ua"⟩) = 200 ∧
    responseBody ((MyMux.empty.RegisterHandler "GET" "/"
        (fun _ => [Effect.write "ok"])).ServeHTTP ⟨"PUT", "/", "ua"⟩) =
      "\x7b\"code\":405,\"message\":\"PUT not allowed on /\"\x7d\n" := by
  constructor <;> rfl

/-- C4: when the entity asks for both decorations, every bound handler's
trace is: the log line first, then the JSON content-type header, then the
effects of the entity's own verb method — JSON decorator innermost, log
decorator outermost. -/
theorem claim_C4 (m : MyMux) (path : String) (e : EndpointMethods) (req : Request)
    (hj : e.DecorateJSON () = true) (hl : e.DecorateLOG () = true)
    (hp : req.path = path)
    (hv : req.method = "GET" ∨ req.method = "PUT" ∨ req.method = "POST" ∨
      req.method = "DELETE" ∨ req.method = "OPTIONS") :
    (m.Register path e).ServeHTTP req =
      Effect.log (req.method ++ " \"" ++ req.path ++ "\" -> " ++ req.userAgent ++ "\n") ::
      Effect.setHeader "Content-Type" "application/json; charset=utf-8" ::
      e.verb req.method req := by
  subst hp
  rcases hv with h | h | h | h | h <;>
    simp [MyMux.Register, MyMux.ServeHTTP, hj, hl, urlHandlerMap.set,
      urlHandlerMap.decorateAt, urlHandlerMap.decorateFive, jsonDecorator,
      printDecorator, EndpointMethods.verb, h]

theorem claim_C4_witness :
    (MyMux.empty.Register "/" (Index.mk ⟨true, true⟩).methods).ServeHTTP
        ⟨"GET", "/", "agent"⟩ =
      [Effect.log "GET \"/\" -> agent\n",
        Effect.setHeader "Content-Type" "application/json; charset=utf-8",
        Effect.write "\x7b\"msg\":\"GET!\"\x7d\n"] := by
  have h := claim_C4 MyMux.empty "/" (Index.mk ⟨true, true⟩).methods
    ⟨"GET", "/", "agent"⟩ rfl rfl rfl (Or.inl rfl)
  exact h

/-- C5, exhibited as a code defect: each default `EndpointHandler` verb
handler writes the JSON body `\x7b"code":405,"message":"<verb> not allowed on
<path>"\x7d` — the message does interpolate the request's verb and path, and
both decoration queries do return `false` — but the response's HTTP status is
200, not 405, because `httpError` never calls `WriteHeader` (contradicting
the code's own doc comments, which promise `HTTP 405 StatusMethodNotAllowed`). -/
theorem claim_C5_bug :
    responseStatus (EndpointHandler.GET ⟨false, false⟩ ⟨"GET", "/", "ua"⟩) = 200 ∧
    responseBody (EndpointHandler.GET ⟨false, false⟩ ⟨"GET", "/", "ua"⟩) =
      "\x7b\"code\":405,\"message\":\"GET not allowed on /\"\x7d\n" ∧
    responseStatus (EndpointHandler.PUT ⟨false, false⟩ ⟨"PUT", "/", "ua"⟩) = 200 ∧
    responseStatus (EndpointHandler.POST ⟨false, false⟩ ⟨"POST", "/", "ua"⟩) = 200 ∧
    responseStatus (EndpointHandler.DELETE ⟨false, false⟩ ⟨"DELETE", "/", "ua"⟩) = 200 ∧
    responseStatus (EndpointHandler.OPTIONS ⟨false, false⟩ ⟨"OPTIONS", "/", "ua"⟩) = 200 ∧
    EndpointHandler.DecorateJSON ⟨false, false⟩ () = false ∧
    EndpointHandler.DecorateLOG ⟨false, false⟩ () = false :=
  ⟨rfl, rfl, rfl, rfl, rfl, rfl, rfl, rfl⟩

/-- C6: if the entity's JSON-decoration query answers `true` at registration,
every bound handler sets the `application/json; charset=utf-8` content type
before any body byte is written, whatever the log query answered. -/
theorem claim_C6 (m : MyMux) (path : String) (e : EndpointMethods) (req : Request)
    (hj : e.DecorateJSON () = true) (hp : req.path = path)
    (hv : req.method = "GET" ∨ req.method = "PUT" ∨ req.method = "POST" ∨
      req.method = "DELETE" ∨ req.method = "OPTIONS") :
    jsonHeaderBeforeWrite ((m.Register path e).ServeHTTP req) = true := by
  subst hp
  cases hl : e.DecorateLOG () <;>
  rcases hv with h | h | h | h | h <;>
    simp [MyMux.Register, MyMux.ServeHTTP, hj, hl, urlHandlerMap.set,
      urlHandlerMap.decorateAt, urlHandlerMap.decorateFive, jsonDecorator,
      printDecorator, jsonHeaderBeforeWrite, h]

theorem claim_C6_witness :
    jsonHeaderBeforeWrite ((MyMux.empty.Register "/"
        (Index.mk ⟨false, true⟩).methods).ServeHTTP ⟨"PUT", "/", "ua"⟩) = true :=
  claim_C6 MyMux.empty "/" (Index.mk ⟨false, true⟩).methods ⟨"PUT", "/", "ua"⟩
    rfl rfl (Or.inr (Or.inl rfl))

/-- An endpoint entity with instrumented decoration queries: the k-th call
(counting from 0) of `DecorateJSON()` returns `js k`, and the k-th call of
`DecorateLOG()` returns `ls k`.  A plain entity is the special case of a
constant answer stream; conversely, answers that differ at later indices make
any extra or later query call observable in the result. -/
structure EndpointMethodsInstr where
  GET : HandlerFunc
  PUT : HandlerFunc
  POST : HandlerFunc
  DELETE : HandlerFunc
  OPTIONS : HandlerFunc
  js : Nat → Bool
  ls : Nat → Bool

/-- One call of an instrumented query: with `k` calls made so far, the call
returns the answer `stream k` and the bumped counter `k + 1`. -/
def callQuery (stream : Nat → Bool) (k : Nat) : Bool × Nat := (stream k, k + 1)

/-- `MyMux.Register` re-executed over an instrumented entity, threading each
query's call counter (initially 0) through the control flow: the same five
bindings; then the single `edph.DecorateJSON()` call sitting in the first
if-condition — one `callQuery`, consuming one stream element; then the single
`edph.DecorateLOG()` call in the second if-condition.  Each textual call site
of the source becomes exactly one `callQuery`.  Returns the new mux together
with the final call counters of `DecorateJSON` and `DecorateLOG`. -/
def MyMux.RegisterInstr (m : MyMux) (path : String) (edph : EndpointMethodsInstr) :
    MyMux × Nat × Nat :=
  let u0 : urlHandlerMap :=
    match m.handlers path with
    | some u => u
    | none => fun _ => none
  let u1 := ((((u0.set "GET" edph.GET).set "PUT" edph.PUT).set
      "POST" edph.POST).set "DELETE" edph.DELETE).set "OPTIONS" edph.OPTIONS
  let (jAns, jk) := callQuery edph.js 0
  let u2 := if jAns then u1.decorateFive jsonDecorator else u1
  let (lAns, lk) := callQuery edph.ls 0
  let u3 := if lAns then u2.decorateFive printDecorator else u2
  (⟨fun p => if p = path then some u3 else m.handlers p⟩, jk, lk)

/-- C8: registration evaluates `DecorateJSON` and `DecorateLOG` exactly once
each and never again.  Over an instrumented entity: (i) registration ends
with both call counters at 1 (a per-verb or repeated query would end higher);
(ii) the table built is exactly `Register` applied to the snapshot of the
first answers, so registration consumes nothing beyond them; (iii) dispatch
through the table, on every request, is invariant under arbitrary changes to
every answer after the first — a bound handler that re-queried would consume
index 1 and break this — so changing the entity's preferences after
registration has no effect on dispatch. -/
theorem claim_C8 (m : MyMux) (path : String) (g pu po de op : HandlerFunc)
    (js ls js' ls' : Nat → Bool) (h0 : js 0 = js' 0) (h1 : ls 0 = ls' 0)
    (req : Request) :
    (m.RegisterInstr path ⟨g, pu, po, de, op, js, ls⟩).2 = (1, 1) ∧
    (m.RegisterInstr path ⟨g, pu, po, de, op, js, ls⟩).1 =
      m.Register path ⟨g, pu, po, de, op, fun _ => js 0, fun _ => ls 0⟩ ∧
    (m.RegisterInstr path ⟨g, pu, po, de, op, js, ls⟩).1.ServeHTTP req =
      (m.RegisterInstr path ⟨g, pu, po, de, op, js', ls'⟩).1.ServeHTTP req := by
  refine ⟨rfl, rfl, ?_⟩
  have e1 : (m.RegisterInstr path ⟨g, pu, po, de, op, js, ls⟩).1 =
      m.Register path ⟨g, pu, po, de, op, fun _ => js 0, fun _ => ls 0⟩ := rfl
  have e2 : (m.RegisterInstr path ⟨g, pu, po, de, op, js', ls'⟩).1 =
      m.Register path ⟨g, pu, po, de, op, fun _ => js' 0, fun _ => ls' 0⟩ := rfl
  rw [e1, e2, h0, h1]

theorem claim_C8_witness :
    (MyMux.empty.RegisterInstr "/" ⟨fun _ => [Effect.write "x"], fun _ => [],
        fun _ => [], fun _ => [], fun _ => [],
        fun k => decide (k = 0), fun k => decide (k = 0)⟩).2 = (1, 1) ∧
    (MyMux.empty.RegisterInstr "/" ⟨fun _ => [Effect.write "x"], fun _ => [],
        fun _ => [], fun _ => [], fun _ => [],
        fun k => decide (k = 0), fun k => decide (k = 0)⟩).1.ServeHTTP
        ⟨"GET", "/", "ua"⟩ =
      (MyMux.empty.RegisterInstr "/" ⟨fun _ => [Effect.write "x"], fun _ => [],
        fun _ => [], fun _ => [], fun _ => [],
        fun _ => true, fun _ => true⟩).1.ServeHTTP ⟨"GET", "/", "ua"⟩ := by
  have h := claim_C8 MyMux.empty "/" (fun _ => [Effect.write "x"]) (fun _ => [])
    (fun _ => []) (fun _ => []) (fun _ => [])
    (fun k => decide (k = 0)) (fun k => decide (k = 0))
    (fun _ => true) (fun _ => true) rfl rfl ⟨"GET", "/", "ua"⟩
  exact ⟨h.1, h.2.2⟩

/-- C7: if the entity's log-decoration query answers `true` at registration,
every bound handler whose underlying verb method does not itself print
(true of every endpoint in the repository) emits exactly one stdout line per
invocation, and that line contains the request's verb and its path. -/
theorem claim_C7 (m : MyMux) (path : String) (e : EndpointMethods) (req : Request)
    (hl : e.DecorateLOG () = true) (hp : req.path = path)
    (hv : req.method = "GET" ∨ req.method = "PUT" ∨ req.method = "POST" ∨
      req.method = "DELETE" ∨ req.method = "OPTIONS")
    (hinner : logsOf (e.verb req.method req) = []) :
    logsOf ((m.Register path e).ServeHTTP req) =
      [req.method ++ " \"" ++ req.path ++ "\" -> " ++ req.userAgent ++ "\n"] ∧
    (∃ b, req.method ++ " \"" ++ req.path ++ "\" -> " ++ req.userAgent ++ "\n"
      = req.method ++ b) ∧
    (∃ a b, req.method ++ " \"" ++ req.path ++ "\" -> " ++ req.userAgent ++ "\n"
      = a ++ (req.path ++ b)) := by
  subst hp
  refine ⟨?_, ⟨" \"" ++ req.path ++ "\" -> " ++ req.userAgent ++ "\n", ?_⟩,
    ⟨req.method ++ " \"", "\" -> " ++ req.userAgent ++ "\n", ?_⟩⟩
  · rcases hv with h | h | h | h | h <;>
      simp [EndpointMethods.verb, h] at hinner <;>
      cases hj : e.DecorateJSON () <;>
        simp [MyMux.Register, MyMux.ServeHTTP, hl, hj, urlHandlerMap.set,
          urlHandlerMap.decorateAt, urlHandlerMap.decorateFive, jsonDecorator,
          printDecorator, logsOf, h, hinner]
  · apply String.ext
    simp [String.data_append, List.append_assoc]
  · apply String.ext
    simp [String.data_append, List.append_assoc]

theorem claim_C7_witness :
    logsOf ((MyMux.empty.Register "/" (Index.mk ⟨true, false⟩).methods).ServeHTTP
      ⟨"GET", "/", "agent"⟩) = ["GET \"/\" -> agent\n"] := by
  have h := (claim_C7 MyMux.empty "/" (Index.mk ⟨true, false⟩).methods
    ⟨"GET", "/", "agent"⟩ rfl rfl (Or.inl rfl) rfl).1
  exact h

/-- ASCII decimal digit test. -/
def isDigitChar (c : Char) : Bool := 48 ≤ c.toNat && c.toNat ≤ 57

/-- Consume a maximal run of digits. -/
def dropDigits : List Char → List Char
  | [] => []
  | c :: rest => if isDigitChar c then dropDigits rest else c :: rest

/-- Require at least one digit, then consume the digit run. -/
def parseDigits1 : List Char → Option (List Char)
  | [] => none
  | c :: rest => if isDigitChar c then some (dropDigits rest) else none

/-- JSON number (integer form): optional minus sign, then digits. -/
def parseIntChars : List Char → Option (List Char)
  | [] => none
  | c :: rest => if c = '-' then parseDigits1 rest else parseDigits1 (c :: rest)

/-- Consume the remainder of a JSON string (after its opening quote) up to and
including the closing quote, accepting unescaped characters above `0x1f`;
returns what follows the closing quote.  The checker is conservative: it
accepts only escape-free string bodies, a strict subset of the JSON string
grammar, so whatever it accepts is valid JSON. -/
def parseStringRest : List Char → Option (List Char)
  | [] => none
  | c :: rest =>
      if c = '"' then some rest
      else if c = '\\' then none
      else if 32 ≤ c.toNat then parseStringRest rest
      else none

/-- Consume an exact literal. -/
def stripLit : List Char → List Char → Option (List Char)
  | [], l => some l
  | _ :: _, [] => none
  | c :: cs, d :: ds => if c = d then stripLit cs ds else none

/-- Validity checker for JSON objects of the exact shape
`\x7b"code":<int>,"message":"<string>"\x7d`. -/
def isValidErrJsonL (l : List Char) : Bool :=
  ((stripLit "\x7b\"code\":".data l).bind fun r1 =>
    (parseIntChars r1).bind fun r2 =>
      (stripLit ",\"message\":\"".data r2).bind fun r3 =>
        (parseStringRest r3).bind fun r4 =>
          some (decide (r4 = ['\x7d']))).getD false

/-- String-level wrapper of `isValidErrJsonL`. -/
def isValidErrJson (s : String) : Bool := isValidErrJsonL s.data

/-- A message is well behaved when it contains no quote, no backslash and no
control character — true of every message the program ever passes to
`httpError`. -/
def wellBehaved (s : String) : Prop :=
  ∀ c ∈ s.data, c ≠ '"' ∧ c ≠ '\\' ∧ 32 ≤ c.toNat

instance (s : String) : Decidable (wellBehaved s) := by
  unfold wellBehaved
  infer_instance

theorem stripLit_append (lit rest : List Char) : stripLit lit (lit ++ rest) = some rest := by
  induction lit with
  | nil => rfl
  | cons c cs ih => simp [stripLit, ih]

theorem dropDigits_append (l : List Char) (c : Char) (rest : List Char)
    (hl : ∀ d ∈ l, isDigitChar d = true) (hc : isDigitChar c = false) :
    dropDigits (l ++ c :: rest) = c :: rest := by
  induction l with
  | nil => simp [dropDigits, hc]
  | cons d ds ih =>
      have hd := hl d (by simp)
      simp only [List.cons_append, dropDigits, hd, if_true]
      exact ih fun x hx => hl x (by simp [hx])

theorem parseDigits1_append (l : List Char) (c : Char) (rest : List Char)
    (hne : l ≠ []) (hl : ∀ d ∈ l, isDigitChar d = true) (hc : isDigitChar c = false) :
    parseDigits1 (l ++ c :: rest) = some (c :: rest) := by
  cases l with
  | nil => exact absurd rfl hne
  | cons d ds =>
      have hd := hl d (by simp)
      simp only [List.cons_append, parseDigits1, hd, if_true]
      rw [dropDigits_append ds c rest (fun x hx => hl x (by simp [hx])) hc]

theorem isDigitChar_ne_minus (c : Char) (h : isDigitChar c = true) : ¬(c = '-') := by
  intro hc
  subst hc
  simp [isDigitChar] at h

theorem parseIntChars_append (l : List Char) (c : Char) (rest : List Char)
    (hne : l ≠ []) (hl : ∀ d ∈ l, isDigitChar d = true) (hc : isDigitChar c = false) :
    parseIntChars (l ++ c :: rest) = some (c :: rest) ∧
    parseIntChars ('-' :: (l ++ c :: rest)) = some (c :: rest) := by
  constructor
  · cases l with
    | nil => exact absurd rfl hne
    | cons d ds =>
        have hd := hl d (by simp)
        simp only [List.cons_append, parseIntChars, isDigitChar_ne_minus d hd, if_false]
        exact parseDigits1_append (d :: ds) c rest hne hl hc
  · simp only [parseIntChars, if_pos rfl]
    exact parseDigits1_append l c rest hne hl hc

theorem natDigitsCore_spec : ∀ fuel n acc, n ≤ fuel →
    ∃ l, natDigitsCore fuel n acc = l ++ acc ∧
      (∀ c ∈ l, isDigitChar c = true) ∧ (n ≠ 0 → l ≠ []) := by
  intro fuel
  induction fuel with
  | zero =>
      intro n acc h
      refine ⟨[], by simp [natDigitsCore], by simp, fun h0 => absurd (Nat.le_zero.mp h) h0⟩
  | succ f ih =>
      intro n acc h
      by_cases h0 : n = 0
      · subst h0
        exact ⟨[], by simp [natDigitsCore], by simp, fun h' => absurd rfl h'⟩
      · have hlt : n / 10 ≤ f := by
          have := Nat.div_lt_self (Nat.pos_of_ne_zero h0) (by norm_num : 1 < 10)
          omega
        obtain ⟨l, hl1, hl2, _⟩ := ih (n / 10) (Char.ofNat (48 + n % 10) :: acc) hlt
        refine ⟨l ++ [Char.ofNat (48 + n % 10)], ?_, ?_, ?_⟩
        · simp [natDigitsCore, h0, hl1]
        · intro c hc
          rcases List.mem_append.mp hc with h' | h'
          · exact hl2 c h'
          · simp only [List.mem_singleton] at h'
            subst h'
            have hm : n % 10 < 10 := Nat.mod_lt _ (by norm_num)
            interval_cases h9 : n % 10 <;> simp_all <;> decide
        · simp

theorem natDecimal_spec (n : Nat) :
    (natDecimal n).data ≠ [] ∧ ∀ c ∈ (natDecimal n).data, isDigitChar c = true := by
  unfold natDecimal
  by_cases h0 : n = 0
  · subst h0
    constructor <;> decide
  · simp only [h0, if_false]
    obtain ⟨l, h1, h2, h3⟩ := natDigitsCore_spec n n [] le_rfl
    rw [h1, List.append_nil]
    exact ⟨h3 h0, h2⟩

theorem parseIntChars_intDecimal (code : Int) (c : Char) (rest : List Char)
    (hc : isDigitChar c = false) :
    parseIntChars ((intDecimal code).data ++ c :: rest) = some (c :: rest) := by
  cases code with
  | ofNat n =>
      obtain ⟨hne, hl⟩ := natDecimal_spec n
      exact (parseIntChars_append (natDecimal n).data c rest hne hl hc).1
  | negSucc n =>
      obtain ⟨hne, hl⟩ := natDecimal_spec (n + 1)
      have hd : (intDecimal (Int.negSucc n)).data = '-' :: (natDecimal (n + 1)).data := by
        show (("-" : String) ++ natDecimal (n + 1)).data = _
        rw [String.data_append]
        rfl
      rw [hd, List.cons_append]
      exact (parseIntChars_append (natDecimal (n + 1)).data c rest hne hl hc).2

theorem parseStringRest_append (l rest : List Char)
    (h : ∀ c ∈ l, c ≠ '"' ∧ c ≠ '\\' ∧ 32 ≤ c.toNat) :
    parseStringRest (l ++ '"' :: rest) = some rest := by
  induction l with
  | nil => simp [parseStringRest]
  | cons c cs ih =>
      obtain ⟨h1, h2, h3⟩ := h c (by simp)
      rw [List.cons_append, parseStringRest, if_neg h1, if_neg h2, if_pos h3]
      exact ih fun x hx => h x (by simp [hx])

theorem fallback_valid (code : Int) (msg : String) (h : wellBehaved msg) :
    isValidErrJson (fallbackErrString code msg) = true := by
  have hA : (fallbackErrString code msg).data
      = "\x7b\"code\":".data ++ ((intDecimal code).data ++
        (",\"message\":\"".data ++ (msg.data ++ "\"\x7d".data))) := by
    simp [fallbackErrString, String.data_append, List.append_assoc]
  show isValidErrJsonL (fallbackErrString code msg).data = true
  rw [hA]
  unfold isValidErrJsonL
  rw [stripLit_append]
  simp only [Option.bind]
  have h1 : ",\"message\":\"".data ++ (msg.data ++ "\"\x7d".data)
      = ',' :: ("\"message\":\"".data ++ (msg.data ++ "\"\x7d".data)) := rfl
  rw [h1,
    parseIntChars_intDecimal code ',' ("\"message\":\"".data ++ (msg.data ++ "\"\x7d".data))
      (by decide)]
  simp only [Option.bind]
  have h2 : (',' :: ("\"message\":\"".data ++ (msg.data ++ "\"\x7d".data)))
      = ",\"message\":\"".data ++ (msg.data ++ "\"\x7d".data) := rfl
  rw [h2, stripLit_append]
  simp only [Option.bind]
  have h3 : msg.data ++ "\"\x7d".data = msg.data ++ '"' :: ['\x7d'] := rfl
  rw [h3, parseStringRest_append msg.data ['\x7d'] h]
  simp

/-- C9: when the JSON encoder fails, `httpError` recovers locally — it still
answers with the content-type header and a body, namely the hand-interpolated
`\x7b"code":<int>,"message":"<msg>"\x7d` string, and that string is valid JSON
of the claimed shape for every well-behaved message; moreover every call of
`httpError`, failing encoder or not, produces a complete header-plus-body
response trace, so routing errors are surfaced to the client and nothing is
propagated to the caller. -/
theorem claim_C9 (code : Int) (msg : String) (h : wellBehaved msg) :
    httpErrorGen true code msg =
      [Effect.setHeader "Content-Type" "application/json; charset=utf-8",
        Effect.write (fallbackErrString code msg)] ∧
    isValidErrJson (fallbackErrString code msg) = true ∧
    (∀ (b : Bool) (c : Int) (s : String), ∃ body, httpErrorGen b c s =
      [Effect.setHeader "Content-Type" "application/json; charset=utf-8",
        Effect.write body]) := by
  refine ⟨rfl, fallback_valid code msg h, ?_⟩
  intro b c s
  cases b
  · exact ⟨encodeErrStruct c s, rfl⟩
  · exact ⟨fallbackErrString c s, rfl⟩

theorem claim_C9_witness :
    httpErrorGen true 404 "missing" =
      [Effect.setHeader "Content-Type" "application/json; charset=utf-8",
        Effect.write (fallbackErrString 404 "missing")] ∧
    isValidErrJson (fallbackErrString 404 "missing") = true :=
  ⟨(claim_C9 404 "missing" (by decide)).1, (claim_C9 404 "missing" (by decide)).2.1⟩

/-- C10: every router-generated error response — the 404 path, the 405 path,
and the default `EndpointHandler` verb responses, all of which go through
`httpError` — sets the `application/json; charset=utf-8` content type before
writing the body, decorators or not. -/
theorem claim_C10 (m : MyMux) (req : Request) :
    (m.handlers req.path = none → jsonHeaderBeforeWrite (m.ServeHTTP req) = true) ∧
    (∀ u, m.handlers req.path = some u → u req.method = none →
      jsonHeaderBeforeWrite (m.ServeHTTP req) = true) ∧
    (∀ e : EndpointHandler,
      jsonHeaderBeforeWrite (e.GET req) = true ∧
      jsonHeaderBeforeWrite (e.PUT req) = true ∧
      jsonHeaderBeforeWrite (e.POST req) = true ∧
      jsonHeaderBeforeWrite (e.DELETE req) = true ∧
      jsonHeaderBeforeWrite (e.OPTIONS req) = true) := by
  refine ⟨fun h => ?_, fun u hu hm => ?_, fun e => ⟨rfl, rfl, rfl, rfl, rfl⟩⟩
  · simp [MyMux.ServeHTTP, h, httpError, httpErrorGen, jsonHeaderBeforeWrite]
  · simp [MyMux.ServeHTTP, hu, hm, httpError, httpErrorGen, jsonHeaderBeforeWrite]

theorem claim_C10_witness :
    jsonHeaderBeforeWrite (MyMux.empty.ServeHTTP ⟨"GET", "/nowhere", "ua"⟩) = true :=
  (claim_C10 MyMux.empty ⟨"GET", "/nowhere", "ua"⟩).1 rfl

end Service
